import Mathlib

/-!
Verification of the state-management behaviour of `src/streamlit_app.py`.

The script itself only calls into the Streamlit framework; the framework's
session-state dictionary, cache store and rerun loop are not part of the
repository's sources, so those mechanisms are modelled from the spec
(section 4.1 "Script-Rerun Session Handler" and section 5).  The script's
own logic — the counter initialisation and increment/decrement handlers
(lines 251-262) and the body of `get_sample_data` (lines 125-133) — is
embedded directly from the source.
-/

/-- Modelled from the spec: the session mapping of the Script-Rerun Session
Handler ("Owns a mapping from string keys to arbitrary values"), realised as
an association list from string keys to values of type `ν`; the underlying
Python object is Streamlit's `st.session_state` dictionary, which is not in
the repository sources. -/
abbrev SessionState (ν : Type) := List (String × ν)

/-- Dictionary read: value stored at `k`, or `none` when `k` is absent
(membership test `"counter" not in st.session_state`). -/
def SessionState.get {ν : Type} : SessionState ν → String → Option ν
  | [], _ => none
  | (k', v') :: rest, k => if k' = k then some v' else SessionState.get rest k

/-- Modelled from the spec: `set(key, value)`: overwrite; dictionary
assignment `st.session_state.key = value`. -/
def SessionState.set {ν : Type} : SessionState ν → String → ν → SessionState ν
  | [], k, v => [(k, v)]
  | (k', v') :: rest, k, v =>
    if k' = k then (k, v) :: rest else (k', v') :: SessionState.set rest k v

/-- Modelled from the spec: `get_or_init(key, default)`: if `key` absent from
the session mapping, set it to `default`; return current value.  In the code
this is the idiom at lines 251-252:
`if "counter" not in st.session_state: st.session_state.counter = 0`. -/
def getOrInit {ν : Type} (s : SessionState ν) (k : String) (d : ν) :
    SessionState ν × ν :=
  match s.get k with
  | some v => (s, v)
  | none => (s.set k d, d)

/-- A widget event relevant to the counter section: a click on the
"➕ Increment" button, a click on the "➖ Decrement" button, or any other
interaction (which still triggers a rerun but changes no counter state). -/
inductive CounterEvent : Type
  | inc : CounterEvent
  | dec : CounterEvent
  | noEvent : CounterEvent
deriving DecidableEq

/-- One rerun of the Status & State section of the script (lines 251-262):
initialise `"counter"` to `0` when absent, then, when the rerun was triggered
by a click of the increment (resp. decrement) button, read the counter and
write back its value plus (resp. minus) one.  Reading an absent attribute
would fault in Python, hence the `Option`; the initialisation guarantees it
never does. -/
def counterRerun (s : SessionState Int) (e : CounterEvent) :
    Option (SessionState Int) :=
  let s1 := (getOrInit s "counter" 0).1
  match e with
  | CounterEvent.inc =>
      (s1.get "counter").map (fun v => s1.set "counter" (v + 1))
  | CounterEvent.dec =>
      (s1.get "counter").map (fun v => s1.set "counter" (v - 1))
  | CounterEvent.noEvent => some s1

/-- A session's life: one rerun per interaction event, in order
(spec: "any widget interaction queues exactly one new rerun"). -/
def runCounter (s : SessionState Int) : List CounterEvent →
    Option (SessionState Int)
  | [] => some s
  | e :: es => (counterRerun s e).bind (fun s' => runCounter s' es)

/-- Number of increment clicks in an event sequence. -/
def incCount : List CounterEvent → Nat
  | [] => 0
  | CounterEvent.inc :: es => incCount es + 1
  | _ :: es => incCount es

/-- Number of decrement clicks in an event sequence. -/
def decCount : List CounterEvent → Nat
  | [] => 0
  | CounterEvent.dec :: es => decCount es + 1
  | _ :: es => decCount es

/-- The result of one `memoize` call: the updated cache, the returned value,
and how many times the underlying function was invoked during the call
(`0` on a hit, `1` on a miss). -/
structure MemoResult (α β : Type) where
  cache : List (α × β)
  result : β
  invocations : Nat
deriving DecidableEq

/-- Lookup in the process-wide cache keyed by argument values. -/
def cacheLookup {α β : Type} [DecidableEq α] : List (α × β) → α → Option β
  | [], _ => none
  | (a', b') :: rest, a => if a' = a then some b' else cacheLookup rest a

/-- Modelled from the spec: `memoize(function, args) -> result`: on first
call with a given (function, args) pair, invoke the function and store the
result; on every subsequent call with the same pair, return the stored
result without invoking the function.  In the code this is the
`@st.cache_data` decorator on `get_sample_data` (line 125); the decorator's
store is framework code, not in the repository sources. -/
def memoize {α β : Type} [DecidableEq α] (f : α → β) (c : List (α × β))
    (a : α) : MemoResult α β :=
  match cacheLookup c a with
  | some b => ⟨c, b, 0⟩
  | none => ⟨(a, f a) :: c, f a, 1⟩

/-- A whole run of the process: the cache threaded through a sequence of
`memoize` calls (reruns of the Data & Charts section, possibly with
different argument values). -/
def runMemo {α β : Type} [DecidableEq α] (f : α → β) (c : List (α × β)) :
    List α → List (α × β)
  | [] => c
  | a :: as => runMemo f (memoize f c a).cache as

/-- The order in which the mutex of the shared cache serialises two
concurrent `memoize` calls from two sessions (spec section 5: "a simple
mutex-guarded map suffices"). -/
inductive Order : Type
  | abFirst : Order
  | baFirst : Order
deriving DecidableEq

/-- Modelled from the spec: two sessions A and B concurrently call
`memoize` with the same (function, args) key on the shared process-wide
cache; the mutex serialises the two calls in one of the two orders.
Returns (A's result, B's result, total invocations of the function). -/
def concurrentMemo {α β : Type} [DecidableEq α] (f : α → β)
    (c : List (α × β)) (a : α) (o : Order) : β × β × Nat :=
  match o with
  | Order.abFirst =>
      let mA := memoize f c a
      let mB := memoize f mA.cache a
      (mA.result, mB.result, mA.invocations + mB.invocations)
  | Order.baFirst =>
      let mB := memoize f c a
      let mA := memoize f mB.cache a
      (mA.result, mB.result, mB.invocations + mA.invocations)

/-- Modelled from the spec: one rerun of the script with possible faults:
the script either completes with a new session state or raises an unhandled
fault.  The host keeps the session state from before the faulting rerun and
surfaces the fault (spec: "an unhandled fault during a rerun aborts that
rerun and surfaces to the user; session state from before the fault remains
intact"); no retry happens.  Returns the session state visible to the next
interaction together with the surfaced fault, if any. -/
def rerunStep {ν : Type} (script : SessionState ν → Except String (SessionState ν))
    (s : SessionState ν) : SessionState ν × Option String :=
  match script s with
  | Except.ok s' => (s', none)
  | Except.error e => (s, some e)

/-- Modelled from the spec: the process-wide session store: each session id
owns its own isolated mapping ("Multiple independent sessions may execute
concurrently but share no mutable state (session mappings are isolated)").
The session is created on first interaction. -/
abbrev Store (ν : Type) := List (Nat × SessionState ν)

/-- Read key `k` in the session `sid`: `none` when the session does not
exist or does not hold `k`. -/
def Store.read {ν : Type} : Store ν → Nat → String → Option ν
  | [], _, _ => none
  | (i, s) :: rest, sid, k =>
    if i = sid then s.get k else Store.read rest sid k

/-- Write `k ↦ v` in the session `sid`, creating the session on first
interaction when it is absent. -/
def Store.write {ν : Type} : Store ν → Nat → String → ν → Store ν
  | [], sid, k, v => [(sid, SessionState.set [] k v)]
  | (i, s) :: rest, sid, k, v =>
    if i = sid then (i, s.set k v) :: rest
    else (i, s) :: Store.write rest sid k v

/-- The rendered counter line of session `sid` (line 265 of the script:
`st.write(f"### Current Counter Value: ...")`), a function of that
session's own mapping only. -/
def renderCounter (st : Store Int) (sid : Nat) : String :=
  match st.read sid "counter" with
  | some v => "### Current Counter Value: `" ++ toString v ++ "`"
  | none => "### Current Counter Value: `?`"

/-- A source of randomness for `get_sample_data`: the two normal draws
(`np.random.randn`) are oracle streams of numeric values, modelled over `Int`
since only the shape of the table is at stake, and the categorical draw
(`np.random.choice(["X", "Y", "Z"], rows)`) is an oracle stream of indices. -/
structure RandomSource where
  randnA : Nat → Int
  randnB : Nat → Int
  choiceIdx : Nat → Nat

/-- The three category labels of `np.random.choice(["X", "Y", "Z"], rows)`
(line 130 of the script). -/
def choiceLabels : List String := ["X", "Y", "Z"]

/-- The table built by `get_sample_data` (lines 127-133): four columns
"Category A", "Category B", "Category C", "Date"; dates are stored as day
offsets from 2023-01-01, the start of `pd.date_range("2023-01-01",
periods=rows)`. -/
structure DataFrame where
  categoryA : List Int
  categoryB : List Int
  categoryC : List String
  date : List Nat
deriving DecidableEq

/-- Embedding of `get_sample_data(rows=20)` (lines 126-133 of the script):
`"Category A": np.random.randn(rows) + 5`,
`"Category B": np.random.randn(rows) * 2`,
`"Category C": np.random.choice(["X", "Y", "Z"], rows)`,
`"Date": pd.to_datetime(pd.date_range("2023-01-01", periods=rows))`. -/
def get_sample_data (rng : RandomSource) (rows : Nat := 20) : DataFrame :=
  { categoryA := (List.range rows).map (fun i => rng.randnA i + 5)
    categoryB := (List.range rows).map (fun i => rng.randnB i * 2)
    categoryC := (List.range rows).map
      (fun i => choiceLabels.get ⟨rng.choiceIdx i % 3, Nat.mod_lt _ (by decide)⟩)
    date := List.range rows }

/-- The call at line 135 of the script: `df = get_sample_data()`, with
`rows` left at its default. -/
def scriptDf (rng : RandomSource) : DataFrame :=
  get_sample_data rng

-- Basic dictionary lemmas.

theorem get_set_same {ν : Type} (s : SessionState ν) (k : String) (v : ν) :
    (s.set k v).get k = some v := by
  induction s with
  | nil => simp [SessionState.set, SessionState.get]
  | cons p rest ih =>
    obtain ⟨k', v'⟩ := p
    by_cases h : k' = k
    · simp [SessionState.set, SessionState.get, h]
    · simp [SessionState.set, SessionState.get, h, ih]

theorem get_set_other {ν : Type} (s : SessionState ν) (k k' : String) (v : ν)
    (h : k' ≠ k) : (s.set k v).get k' = s.get k' := by
  induction s with
  | nil => simp [SessionState.set, SessionState.get, Ne.symm h]
  | cons p rest ih =>
    obtain ⟨k₀, v₀⟩ := p
    by_cases h₀ : k₀ = k
    · subst h₀
      simp [SessionState.set, SessionState.get, Ne.symm h]
    · by_cases h₁ : k₀ = k'
      · simp [SessionState.set, SessionState.get, h₀, h₁, h]
      · simp [SessionState.set, SessionState.get, h₀, h₁, ih]

/-- Invariant of the counter section: when the session mapping holds
`"counter" ↦ v`, running any event sequence succeeds and leaves the counter
at `v` plus the number of increment clicks minus the number of decrement
clicks. -/
theorem runCounter_counter (es : List CounterEvent) (s : SessionState Int)
    (v : Int) (h : s.get "counter" = some v) :
    ∃ s', runCounter s es = some s' ∧
      s'.get "counter" = some (v + (incCount es : Int) - (decCount es : Int)) := by
  induction es generalizing s v with
  | nil => exact ⟨s, rfl, by simp [incCount, decCount, h]⟩
  | cons e es ih =>
    have hgo : getOrInit s "counter" 0 = (s, v) := by simp [getOrInit, h]
    cases e with
    | inc =>
      have hstep : counterRerun s CounterEvent.inc
          = some (s.set "counter" (v + 1)) := by
        simp [counterRerun, hgo, h]
      obtain ⟨s', hrun, hval⟩ :=
        ih (s.set "counter" (v + 1)) (v + 1) (get_set_same s "counter" (v + 1))
      refine ⟨s', ?_, ?_⟩
      · simp [runCounter, hstep, hrun]
      · rw [hval]
        congr 1
        simp [incCount, decCount]
        ring
    | dec =>
      have hstep : counterRerun s CounterEvent.dec
          = some (s.set "counter" (v - 1)) := by
        simp [counterRerun, hgo, h]
      obtain ⟨s', hrun, hval⟩ :=
        ih (s.set "counter" (v - 1)) (v - 1) (get_set_same s "counter" (v - 1))
      refine ⟨s', ?_, ?_⟩
      · simp [runCounter, hstep, hrun]
      · rw [hval]
        congr 1
        simp [incCount, decCount]
        ring
    | noEvent =>
      have hstep : counterRerun s CounterEvent.noEvent = some s := by
        simp [counterRerun, hgo]
      obtain ⟨s', hrun, hval⟩ := ih s v h
      refine ⟨s', ?_, ?_⟩
      · simp [runCounter, hstep, hrun]
      · rw [hval]
        congr 1

/-- C1: session-state write-then-read: after `set(k, v)` the membership
check of `get_or_init(k, d)` finds `k` present, so it returns the stored
`v` (not the default `d`, whenever `v ≠ d`) and leaves the mapping
untouched.  The mapping is restored unchanged at the start of the next
rerun (spec state machine step (1)), so the same equation is the read on
the same rerun and on the immediately following one. -/
theorem set_then_getOrInit (ν : Type) (s : SessionState ν) (k : String)
    (v d : ν) :
    (getOrInit (s.set k v) k d).2 = v ∧
      (getOrInit (s.set k v) k d).1 = s.set k v ∧
      (v ≠ d → (getOrInit (s.set k v) k d).2 ≠ d) := by
  refine ⟨?_, ?_, ?_⟩ <;> simp [getOrInit, get_set_same]

/-- Witness for C1 at the concrete instance of the code: key `"counter"`,
stored value `5`, init value `0`. -/
theorem set_then_getOrInit_witness :
    (getOrInit (SessionState.set ([] : SessionState Int) "counter" 5)
        "counter" 0).2 = 5 ∧
      (5 : Int) ≠ 0 ∧
      (getOrInit (SessionState.set ([] : SessionState Int) "counter" 5)
        "counter" 0).2 ≠ 0 := by
  obtain ⟨h1, _, h3⟩ :=
    set_then_getOrInit Int ([] : SessionState Int) "counter" 5 0
  exact ⟨h1, by decide, h3 (by decide)⟩

/-- C5: `get_or_init(key, default)` on an absent key sets the key to the
default and returns the now-current value, which is the default; its only
effect is this mutation of the session mapping, and it is a total function
(no error conditions).  In the code: `if "counter" not in st.session_state:
st.session_state.counter = 0`. -/
theorem getOrInit_absent (ν : Type) (s : SessionState ν) (k : String) (d : ν)
    (h : s.get k = none) :
    getOrInit s k d = (s.set k d, d) ∧ (s.set k d).get k = some d := by
  simp [getOrInit, h, get_set_same]

/-- Witness for C5 at the instance of the code: an empty fresh session,
key `"counter"`, default `0`. -/
theorem getOrInit_absent_witness :
    SessionState.get ([] : SessionState Int) "counter" = none ∧
      getOrInit ([] : SessionState Int) "counter" 0
        = (SessionState.set [] "counter" 0, 0) ∧
      (SessionState.set ([] : SessionState Int) "counter" 0).get "counter"
        = some 0 := by
  have h : SessionState.get ([] : SessionState Int) "counter" = none := rfl
  obtain ⟨h1, h2⟩ := getOrInit_absent Int [] "counter" 0 h
  exact ⟨h, h1, h2⟩

/-- C4: counter scenario: from a fresh session (the first rerun initialises
the counter to 0), three increment clicks followed by one decrement click
leave the session counter at 2. -/
theorem counter_scenario :
    (runCounter ([] : SessionState Int)
        [CounterEvent.inc, CounterEvent.inc, CounterEvent.inc,
          CounterEvent.dec]).bind
      (fun s => s.get "counter") = some 2 := by
  decide

/-- C10: the counter is an unbounded integer: starting from the initialized
value 0, any sequence of events with `n` increment clicks and `m` decrement
clicks leaves the counter at `n - m` as an integer; in particular a single
decrement on a fresh session yields `-1` — no lower or upper bound is
enforced. -/
theorem counter_int_n_minus_m (es : List CounterEvent) :
    (∃ s', runCounter (SessionState.set ([] : SessionState Int) "counter" 0)
        es = some s' ∧
      s'.get "counter" = some ((incCount es : Int) - (decCount es : Int))) ∧
    (runCounter ([] : SessionState Int) [CounterEvent.dec]).bind
      (fun s => s.get "counter") = some (-1) := by
  constructor
  · have h := runCounter_counter es
      (SessionState.set ([] : SessionState Int) "counter" 0) 0
      (get_set_same [] "counter" 0)
    simpa using h
  · decide

-- Cache lemmas.

theorem cacheLookup_memoize_self {α β : Type} [DecidableEq α] (f : α → β)
    (c : List (α × β)) (a : α) :
    cacheLookup (memoize f c a).cache a = some (memoize f c a).result := by
  cases h : cacheLookup c a <;> simp [memoize, h, cacheLookup]

theorem memoize_hit {α β : Type} [DecidableEq α] (f : α → β)
    (c : List (α × β)) (a : α) (b : β) (h : cacheLookup c a = some b) :
    memoize f c a = ⟨c, b, 0⟩ := by
  simp [memoize, h]

theorem memoize_second_call {α β : Type} [DecidableEq α] (f : α → β)
    (c : List (α × β)) (a : α) :
    memoize f (memoize f c a).cache a
      = ⟨(memoize f c a).cache, (memoize f c a).result, 0⟩ :=
  memoize_hit f _ a _ (cacheLookup_memoize_self f c a)

theorem memoize_invocations_le_one {α β : Type} [DecidableEq α] (f : α → β)
    (c : List (α × β)) (a : α) : (memoize f c a).invocations ≤ 1 := by
  cases h : cacheLookup c a <;> simp [memoize, h]

theorem cacheLookup_memoize_mono {α β : Type} [DecidableEq α] (f : α → β)
    (c : List (α × β)) (a a' : α) (b : β) (h : cacheLookup c a = some b) :
    cacheLookup (memoize f c a').cache a = some b := by
  cases h' : cacheLookup c a' with
  | some b' => simp [memoize, h', h]
  | none =>
    have hne : a' ≠ a := by
      rintro rfl
      rw [h'] at h
      cases h
    simp [memoize, h', cacheLookup, hne, h]

theorem cacheLookup_runMemo_mono {α β : Type} [DecidableEq α] (f : α → β)
    (c : List (α × β)) (a : α) (b : β) (as : List α)
    (h : cacheLookup c a = some b) :
    cacheLookup (runMemo f c as) a = some b := by
  induction as generalizing c with
  | nil => exact h
  | cons a' as ih => exact ih _ (cacheLookup_memoize_mono f c a a' b h)

/-- C2: memoization invokes at most once: two `memoize` calls with an
identical (function, args) pair together invoke the underlying function at
most once; the second call returns the stored result without running the
function body.  In the code: `get_sample_data` decorated with
`@st.cache_data`, called with the default `rows=20`. -/
theorem memoize_twice_at_most_once (α β : Type) [DecidableEq α] (f : α → β)
    (c : List (α × β)) (a : α) :
    (memoize f c a).invocations
        + (memoize f (memoize f c a).cache a).invocations ≤ 1 ∧
      (memoize f (memoize f c a).cache a).invocations = 0 ∧
      (memoize f (memoize f c a).cache a).result = (memoize f c a).result := by
  rw [memoize_second_call]
  exact ⟨by simpa using memoize_invocations_le_one f c a, rfl, rfl⟩

/-- C3: cache-entry stability: once a first `memoize` call has computed the
value for a key, every later lookup of that key — after any number of
intervening `memoize` calls in the life of the process — returns the same
value with no recomputation; in particular `memoize(gen, rows=20)` called
twice yields the identical table value the second time, where `gen` is the
body of `get_sample_data`. -/
theorem memoize_cache_entry_stable (α β : Type) [DecidableEq α] (f : α → β)
    (c : List (α × β)) (a : α) (as : List α) :
    ((memoize f (runMemo f (memoize f c a).cache as) a).result
        = (memoize f c a).result ∧
      (memoize f (runMemo f (memoize f c a).cache as) a).invocations = 0) ∧
    (∀ rng : RandomSource,
      (memoize (fun rows => get_sample_data rng rows)
          (memoize (fun rows => get_sample_data rng rows) [] 20).cache
          20).result
        = (memoize (fun rows => get_sample_data rng rows) [] 20).result) := by
  constructor
  · have hl := cacheLookup_runMemo_mono f (memoize f c a).cache a
      (memoize f c a).result as (cacheLookup_memoize_self f c a)
    rw [memoize_hit f _ a _ hl]
    exact ⟨rfl, rfl⟩
  · intro rng
    rw [memoize_second_call]

/-- C8: no duplicate-computation race: when two sessions call `memoize`
concurrently with the same (function, args) key, whichever way the mutex of
the shared cache serialises the two calls, the underlying function is
invoked at most once across both calls and both sessions observe the same
stored result. -/
theorem concurrentMemo_no_duplicate (α β : Type) [DecidableEq α] (f : α → β)
    (c : List (α × β)) (a : α) (o : Order) :
    (concurrentMemo f c a o).2.2 ≤ 1 ∧
      (concurrentMemo f c a o).1 = (concurrentMemo f c a o).2.1 := by
  cases o <;>
    simp [concurrentMemo, memoize_second_call] <;>
    simpa using memoize_invocations_le_one f c a

/-- C6: fault atomicity of a rerun: when the script raises an unhandled
fault during a rerun, the fault is surfaced to the host and aborts only that
rerun — it is not retried and does not end the session — and the session
state from before the faulting rerun is the state the next interaction's
rerun starts from. -/
theorem fault_aborts_only_rerun (ν : Type)
    (script next : SessionState ν → Except String (SessionState ν))
    (s : SessionState ν) (e : String) (hf : script s = Except.error e) :
    (rerunStep script s).1 = s ∧
      (rerunStep script s).2 = some e ∧
      rerunStep next (rerunStep script s).1 = rerunStep next s := by
  refine ⟨?_, ?_, ?_⟩ <;> simp [rerunStep, hf]

/-- Witness for C6: a script that faults unconditionally, run on a session
holding `"counter" ↦ 1`; the fault surfaces, the state survives, and a
following rerun starts from it. -/
theorem fault_aborts_only_rerun_witness :
    (rerunStep (fun _ => Except.error "boom") [("counter", (1 : Int))]).1
        = [("counter", 1)] ∧
      (rerunStep (fun _ => Except.error "boom") [("counter", (1 : Int))]).2
        = some "boom" ∧
      rerunStep (fun t => Except.ok t)
          (rerunStep (fun _ => Except.error "boom")
            [("counter", (1 : Int))]).1
        = rerunStep (fun t => Except.ok t) [("counter", (1 : Int))] :=
  fault_aborts_only_rerun Int (fun _ => Except.error "boom")
    (fun t => Except.ok t) [("counter", (1 : Int))] "boom" rfl

theorem read_write_other {ν : Type} (st : Store ν) (A B : Nat) (k k' : String)
    (v : ν) (h : A ≠ B) :
    (Store.write st A k v).read B k' = Store.read st B k' := by
  induction st with
  | nil => simp [Store.write, Store.read, h]
  | cons p rest ih =>
    obtain ⟨i, s⟩ := p
    by_cases hi : i = A
    · subst hi
      simp [Store.write, Store.read, h]
    · simp [Store.write, Store.read, hi, ih]

/-- C7: session isolation: a write to any key in session A is never
observable by a read in a distinct session B, and B's rendered counter line
is identical whether or not A wrote — the two sessions' mappings share no
mutable state. -/
theorem session_isolation (st : Store Int) (A B : Nat) (k k' : String)
    (v : Int) (h : A ≠ B) :
    (Store.write st A k v).read B k' = Store.read st B k' ∧
      renderCounter (Store.write st A k v) B = renderCounter st B := by
  refine ⟨read_write_other st A B k k' v h, ?_⟩
  unfold renderCounter
  rw [read_write_other st A B k "counter" v h]

/-- Witness for C7: session 1 writes `"counter" ↦ 7`; session 2's read and
rendered line are unchanged. -/
theorem session_isolation_witness :
    (1 : Nat) ≠ 2 ∧
      (Store.write ([(2, [("counter", (5 : Int))])] : Store Int) 1 "counter"
          7).read 2 "counter"
        = Store.read ([(2, [("counter", (5 : Int))])] : Store Int) 2 "counter" ∧
      renderCounter
          (Store.write ([(2, [("counter", (5 : Int))])] : Store Int) 1
            "counter" 7) 2
        = renderCounter ([(2, [("counter", (5 : Int))])] : Store Int) 2 := by
  have h := session_isolation ([(2, [("counter", (5 : Int))])] : Store Int)
    1 2 "counter" "counter" 7 (by decide)
  exact ⟨by decide, h.1, h.2⟩

/-- A degenerate random source for concrete evaluation. -/
def zeroRng : RandomSource :=
  { randnA := fun _ => 0, randnB := fun _ => 0, choiceIdx := fun _ => 0 }

/-- C9: shape of the generated table: for every positive `rows`,
`get_sample_data(rows)` returns a table whose four columns "Category A",
"Category B", "Category C", "Date" each have exactly `rows` entries, whose
"Category C" entries are all drawn from `{"X", "Y", "Z"}`, and whose "Date"
column is the contiguous daily range of length `rows` starting 2023-01-01
(day offsets `0, 1, ..., rows - 1`); the script's call at line 135 uses the
default `rows = 20`. -/
theorem get_sample_data_shape (rng : RandomSource) (rows : Nat)
    (h : 0 < rows) :
    (get_sample_data rng rows).categoryA.length = rows ∧
      (get_sample_data rng rows).categoryB.length = rows ∧
      (get_sample_data rng rows).categoryC.length = rows ∧
      (get_sample_data rng rows).date.length = rows ∧
      (∀ x ∈ (get_sample_data rng rows).categoryC, x ∈ choiceLabels) ∧
      (get_sample_data rng rows).date = List.range rows ∧
      scriptDf rng = get_sample_data rng 20 := by
  refine ⟨?_, ?_, ?_, ?_, ?_, rfl, rfl⟩ <;> simp [get_sample_data]

/-- Witness for C9 at the script's own call: `rows = 20` on a concrete
random source. -/
theorem get_sample_data_shape_witness :
    0 < 20 ∧
      ((get_sample_data zeroRng 20).categoryA.length = 20 ∧
        (get_sample_data zeroRng 20).categoryB.length = 20 ∧
        (get_sample_data zeroRng 20).categoryC.length = 20 ∧
        (get_sample_data zeroRng 20).date.length = 20 ∧
        (∀ x ∈ (get_sample_data zeroRng 20).categoryC, x ∈ choiceLabels) ∧
        (get_sample_data zeroRng 20).date = List.range 20 ∧
        scriptDf zeroRng = get_sample_data zeroRng 20) :=
  ⟨by decide, get_sample_data_shape zeroRng 20 (by decide)⟩
